import Mathlib

/-!
Verification of the pygraver machine-control layer (`pygraver/machine.py`)
against its natural-language specification.

The Python code is shallowly embedded: the `Machine` object becomes a Lean
structure, Python floats become `ℚ`, serial I/O becomes an explicit event
stream stored in the state (`incoming` for lines the device will deliver,
`drain_times_out` for whether flushing the write buffer exceeds the timeout),
and Python exceptions become an explicit `PyError` value.  Every operation
returns its Python result together with the post-state, so that state changes
made before an exception are kept, exactly as in Python.
-/

/-- Modelled from the spec: `pygraver.core.types.Point` is implemented in the
C++ core, which is not part of the Python sources.  Per the spec (§3) it is a
value of 4 scalar coordinates (x, y, z, c); the unit tests pin the default
constructor to the origin `Point(0,0,0,0)`. -/
structure Point where
  x : ℚ := 0
  y : ℚ := 0
  z : ℚ := 0
  c : ℚ := 0
  deriving Repr, DecidableEq

/-- `pygraver.render.StyledPath`: a path (sequence of points, via the C++
`types.Path` base) with style attributes.  Class defaults: `tool_size = 1.0`,
`color = [0, 0, 0, 255]`.  The optional render model/shape attachment is
display-only and not modelled. -/
structure StyledPath where
  points : List Point := []
  tool_size : ℚ := 1
  color : List ℤ := [0, 0, 0, 255]
  deriving Repr, DecidableEq

/-- Python exceptions that the embedded code can raise.
`invalidAnswerException` is `pygraver.exceptions.InvalidAnswerException`;
it is part of the error vocabulary of the package. -/
inductive PyError where
  | valueError
  | serialException
  | timeoutError
  | typeError
  | indexError
  | invalidAnswerException
  deriving Repr, DecidableEq

/-- Python return value of `Machine.write`: `False` when no writer exists,
`None` (the implicit return) after a successful write. -/
inductive WriteRet where
  | pyNone
  | pyFalse
  deriving Repr, DecidableEq

/-- Python truthiness of a `Machine.write` result: both `None` and `False`
are falsy. -/
def WriteRet.truthy : WriteRet → Bool
  | pyNone => false
  | pyFalse => false

/-- One outcome of a bounded `reader.readuntil` call: either a full line
(terminator included) arrives within the timeout, or the read times out. -/
inductive ReadEvent where
  | line (s : String)
  | timeoutEvt
  deriving Repr, DecidableEq

/-- State of a `pygraver.machine.Machine` object, together with the relevant
state of its serial environment.  Field defaults are the class attributes of
`Machine` and the values set in `Machine.__init__`. -/
structure Machine where
  port : String := ""
  reader_open : Bool := false
  writer_open : Bool := false
  term_char : String := "\n"
  response_ok : String := "ok"
  serial_baud_rate : ℤ := 115200
  timeout : Option ℚ := some 1
  feed_rate : ℚ := 100
  endstops : Bool := true
  /-- environment: whether `writer.drain()` exceeds the timeout. -/
  drain_times_out : Bool := false
  /-- environment: successive outcomes of `reader.readuntil`. -/
  incoming : List ReadEvent := []
  /-- log of everything written to the serial port. -/
  sent : List String := []
  history : List StyledPath := [{ points := [{}] }]
  deriving Repr, DecidableEq

/-- `Machine.write`: returns `False` when no writer is open; otherwise writes
`cmd` plus the terminator and drains, raising `asyncio.TimeoutError` when the
drain exceeds the timeout. -/
def Machine.write (m : Machine) (cmd : String) : Except PyError WriteRet × Machine :=
  if m.writer_open = false then (.ok .pyFalse, m)
  else if m.drain_times_out then (.error .timeoutError, m)
  else (.ok .pyNone, { m with sent := m.sent ++ [cmd ++ m.term_char] })

/-- `Machine.readline`: returns `None` when no reader is open; otherwise one
bounded `readuntil`, raising `asyncio.TimeoutError` when no line arrives in
time (an exhausted event stream stands for a device that never replies). -/
def Machine.readline (m : Machine) : Except PyError (Option String) × Machine :=
  if m.reader_open = false then (.ok none, m)
  else
    match m.incoming with
    | [] => (.error .timeoutError, m)
    | .timeoutEvt :: rest => (.error .timeoutError, { m with incoming := rest })
    | .line s :: rest => (.ok (some s), { m with incoming := rest })

/-- Python `bytes.endswith`, over the character lists of the two strings
(kernel-reducible, unlike `String.endsWith`). -/
def strEndsWith (s pat : String) : Bool :=
  List.isSuffixOf pat.toList s.toList

/-- The collection loop of `Machine.wait_answer`: read up to `n` lines,
appending each to `msg`; after each read, return `msg` when the last line
ends with the ok-message; a read timeout, or the budget reaching zero,
yields `none`.  Returns the result and the unconsumed read events. -/
def waitAnswerLoop (ok_message : String) : Nat → List ReadEvent → List String →
    Option (List String) × List ReadEvent
  | 0, evts, _ => (none, evts)
  | _ + 1, [], _ => (none, [])
  | _ + 1, .timeoutEvt :: rest, _ => (none, rest)
  | n + 1, .line s :: rest, msg =>
    let msg := msg ++ [s]
    if strEndsWith s ok_message then (some msg, rest)
    else waitAnswerLoop ok_message n rest msg

/-- `Machine.wait_answer`: `None` when no reader is open; otherwise collect
lines with `waitAnswerLoop`, the ok-message being the ok-token followed by
the terminator. -/
def Machine.wait_answer (m : Machine) (n_lines : Nat) : Option (List String) × Machine :=
  if m.reader_open = false then (none, m)
  else
    let r := waitAnswerLoop (m.response_ok ++ m.term_char) n_lines m.incoming []
    (r.1, { m with incoming := r.2 })

/-- `Machine.ask`: write the command (exceptions from the drain propagate),
then wait for the answer. -/
def Machine.ask (m : Machine) (cmd : String) (n_lines : Nat) :
    Except PyError (Option (List String)) × Machine :=
  match m.write cmd with
  | (.error e, m1) => (.error e, m1)
  | (.ok _, m1) =>
    let r := m1.wait_answer n_lines
    (.ok r.1, r.2)

/-- Index of the first line ending with the ok-message, if any
(specification-side helper for stating what `wait_answer` collects). -/
def firstOkIndex (ok_message : String) : List String → Option Nat
  | [] => none
  | l :: ls =>
    if strEndsWith l ok_message then some 0
    else (firstOkIndex ok_message ls).map (· + 1)

/-! ### C1: what `wait_answer`/`ask` return -/

theorem waitAnswerLoop_pure (ok : String) :
    ∀ (n : Nat) (lines acc : List String),
      (waitAnswerLoop ok n (lines.map ReadEvent.line) acc).1 =
        match firstOkIndex ok (lines.take n) with
        | some k => some (acc ++ lines.take (k + 1))
        | none => none := by
  intro n
  induction n with
  | zero => intro lines acc; simp [waitAnswerLoop, firstOkIndex]
  | succ n ih =>
    intro lines acc
    cases lines with
    | nil => simp [waitAnswerLoop, firstOkIndex]
    | cons l ls =>
      simp only [List.map_cons, waitAnswerLoop, List.take_succ_cons, firstOkIndex]
      by_cases h : strEndsWith l ok
      · simp [h]
      · simp only [h, Bool.false_eq_true, if_false]
        rw [ih ls (acc ++ [l])]
        cases hfo : firstOkIndex ok (ls.take n) <;>
          simp [hfo, List.take_succ_cons, List.append_assoc]

/-- Concrete machine for the C1 witness: three buffered lines, the second one
ok-terminated. -/
def c1Ok : Machine :=
  { reader_open := true, incoming := [.line "a\n", .line "ok\n", .line "b\n"] }

/-- Concrete machine for the C1 counterexample: two buffered lines, none of
them ok-terminated. -/
def c1NoOk : Machine :=
  { reader_open := true, writer_open := true,
    incoming := [.line "a\n", .line "b\n"] }

/-- C1 (amended): over an open connection fed a stream of reply lines,
`wait_answer` returns the collected lines exactly when one of the first
`n_lines` lines ends with the ok-token followed by the terminator, in which
case it returns the lines up to and including the first such line (an early
ok line short-circuits a multi-line reply); when no ok-terminated line occurs
within the budget — including when the budget is exhausted — it returns
`None`, not the collected lines. -/
theorem wait_answer_first_ok_prefix (m : Machine) (lines : List String) (n : Nat)
    (hr : m.reader_open = true) (hm : m.incoming = lines.map ReadEvent.line) :
    (m.wait_answer n).1 =
      match firstOkIndex (m.response_ok ++ m.term_char) (lines.take n) with
      | some k => some (lines.take (k + 1))
      | none => none := by
  rw [Machine.wait_answer, if_neg (by simp [hr]), hm, waitAnswerLoop_pure]
  cases hfo : firstOkIndex (m.response_ok ++ m.term_char) (lines.take n) <;> simp [hfo]

/-- Witness for C1's theorem: at `c1Ok` with budget 3, the hypotheses hold
and the reply is short-circuited at the ok line. -/
theorem wait_answer_first_ok_prefix_witness :
    c1Ok.reader_open = true ∧
    c1Ok.incoming = ["a\n", "ok\n", "b\n"].map ReadEvent.line ∧
    ((c1Ok.wait_answer 3).1 =
      match firstOkIndex (c1Ok.response_ok ++ c1Ok.term_char) (["a\n", "ok\n", "b\n"].take 3) with
      | some k => some (["a\n", "ok\n", "b\n"].take (k + 1))
      | none => none) :=
  ⟨rfl, rfl, wait_answer_first_ok_prefix c1Ok ["a\n", "ok\n", "b\n"] 3 rfl rfl⟩

example : (c1Ok.wait_answer 3).1 = some ["a\n", "ok\n"] := by decide

/-- C1 counterexample: with two available reply lines and a budget of 2, a
reply that never contains the ok-token is NOT accepted once the budget is
exhausted: `ask`/`wait_answer` return `None`, not the collected lines
`["a\n", "b\n"]` the claim promises. -/
theorem wait_answer_budget_exhausted_returns_none :
    (c1NoOk.ask "M114" 2).1 = .ok none ∧
    (c1NoOk.wait_answer 2).1 ≠ some ["a\n", "b\n"] := by
  constructor
  · rfl
  · decide

/-! ### C3: read timeouts abort the whole answer; `ask` never raises on them -/

theorem waitAnswerLoop_some_endsWith (ok : String) :
    ∀ (n : Nat) (evts : List ReadEvent) (acc msg : List String),
      (waitAnswerLoop ok n evts acc).1 = some msg →
      ∃ ms l, msg = ms ++ [l] ∧ strEndsWith l ok = true := by
  intro n
  induction n with
  | zero => intro evts acc msg h; simp [waitAnswerLoop] at h
  | succ n ih =>
    intro evts acc msg h
    cases evts with
    | nil => simp [waitAnswerLoop] at h
    | cons e rest =>
      cases e with
      | timeoutEvt => simp [waitAnswerLoop] at h
      | line s =>
        simp only [waitAnswerLoop] at h
        by_cases hs : strEndsWith s ok
        · simp only [hs, if_true] at h
          exact ⟨acc, s, (Option.some_inj.mp h).symm, hs⟩
        · simp only [hs, Bool.false_eq_true, if_false] at h
          exact ih rest (acc ++ [s]) msg h

/-- Concrete machine for C3: connection open in both directions, the drain
succeeds, but the device never delivers a line. -/
def c3Dead : Machine :=
  { reader_open := true, writer_open := true, incoming := [] }

/-- C3 (amended): when the drain does not time out, `ask` never raises at
all: a read timeout is swallowed and the whole answer becomes `None` — no
partially-collected lines are ever returned (an answer returned as a list
always ends in an ok-terminated line), and the connection flags are left
untouched.  A device that never replies therefore makes `ask` return `None`
to its caller rather than surfacing `TimeoutError`. -/
theorem wait_answer_flags (m : Machine) (n : Nat) :
    (m.wait_answer n).2.reader_open = m.reader_open ∧
    (m.wait_answer n).2.writer_open = m.writer_open := by
  unfold Machine.wait_answer
  split <;> exact ⟨rfl, rfl⟩

theorem wait_answer_some_endsWith (m : Machine) (n : Nat) (msg : List String)
    (h : (m.wait_answer n).1 = some msg) :
    ∃ ms l, msg = ms ++ [l] ∧ strEndsWith l (m.response_ok ++ m.term_char) = true := by
  unfold Machine.wait_answer at h
  by_cases hr : m.reader_open = false
  · rw [if_pos hr] at h; exact absurd h (by simp)
  · rw [if_neg hr] at h
    exact waitAnswerLoop_some_endsWith _ n m.incoming [] msg h

/-- When the drain does not time out, `ask` writes and then behaves as
`wait_answer` on a machine differing at most in the `sent` log. -/
theorem ask_shape (m : Machine) (cmd : String) (n : Nat) (hd : m.drain_times_out = false) :
    ∃ m1 : Machine,
      m.ask cmd n = (.ok (m1.wait_answer n).1, (m1.wait_answer n).2) ∧
      m1.reader_open = m.reader_open ∧ m1.writer_open = m.writer_open ∧
      m1.response_ok = m.response_ok ∧ m1.term_char = m.term_char := by
  by_cases hw : m.writer_open = false
  · refine ⟨m, ?_, rfl, rfl, rfl, rfl⟩
    unfold Machine.ask Machine.write
    rw [if_pos hw]
  · refine ⟨{ m with sent := m.sent ++ [cmd ++ m.term_char] }, ?_, rfl, rfl, rfl, rfl⟩
    unfold Machine.ask Machine.write
    rw [if_neg hw, if_neg (by simp [hd])]

theorem ask_all_or_nothing (m : Machine) (cmd : String) (n : Nat)
    (hd : m.drain_times_out = false) :
    (∀ e, (m.ask cmd n).1 ≠ .error e) ∧
    (∀ msg, (m.ask cmd n).1 = .ok (some msg) →
      ∃ ms l, msg = ms ++ [l] ∧ strEndsWith l (m.response_ok ++ m.term_char) = true) ∧
    ((m.ask cmd n).2.reader_open = m.reader_open ∧
     (m.ask cmd n).2.writer_open = m.writer_open) := by
  obtain ⟨m1, heq, hr1, hw1, hok1, ht1⟩ := ask_shape m cmd n hd
  refine ⟨?_, ?_, ?_⟩
  · intro e h; rw [heq] at h; simp at h
  · intro msg h; rw [heq] at h
    have h' : (m1.wait_answer n).1 = some msg := by simpa using h
    obtain ⟨ms, l, h1, h2⟩ := wait_answer_some_endsWith m1 n msg h'
    exact ⟨ms, l, h1, by rwa [hok1, ht1] at h2⟩
  · rw [heq]
    have hf := wait_answer_flags m1 n
    exact ⟨hf.1.trans hr1, hf.2.trans hw1⟩

/-- Witness for C3's theorem at `c3Dead`: the drain hypothesis holds and
`ask` does not raise `TimeoutError`. -/
theorem ask_all_or_nothing_witness :
    c3Dead.drain_times_out = false ∧
    (c3Dead.ask "M114" 2).1 ≠ .error .timeoutError :=
  ⟨rfl, (ask_all_or_nothing c3Dead "M114" 2 rfl).1 .timeoutError⟩

/-- C3 counterexample: a device that never replies makes `ask` return
`None` (`.ok none`), not raise/surface `TimeoutError` as the claim states. -/
theorem ask_silent_on_read_timeout :
    (c3Dead.ask "M114" 2).1 = .ok none ∧
    (c3Dead.ask "M114" 2).1 ≠ .error .timeoutError :=
  ⟨rfl, fun h => nomatch h⟩

/-! ### Protocol codec: number formatting and positioning commands -/

/-- Python `str.upper()` (kernel-reducible, over the character list). -/
def strToUpper (s : String) : String :=
  String.mk (s.toList.map Char.toUpper)

/-- The machine's fixed axis set, in the declaration order of `Machine._axes`
(`{"X": "x", "Y": "y", "Z": "z", "C": "c"}`). -/
def axesStrs : List String := ["X", "Y", "Z", "C"]

/-- Write `v` into the named axis component (the `setattr` through the
`_axes` mapping); unknown axis names leave the point unchanged. -/
def setAxisS (pt : Point) (ax : String) (v : ℚ) : Point :=
  if ax = "X" then { pt with x := v }
  else if ax = "Y" then { pt with y := v }
  else if ax = "Z" then { pt with z := v }
  else if ax = "C" then { pt with c := v }
  else pt

/-- Read the named axis component (the `getattr` through the `_axes`
mapping). -/
def getAxisS (pt : Point) (ax : String) : ℚ :=
  if ax = "X" then pt.x
  else if ax = "Y" then pt.y
  else if ax = "Z" then pt.z
  else if ax = "C" then pt.c
  else 0

/-- `round(q · 10^6)`, computed on numerator and denominator so the kernel
can evaluate it.  Python's `"{:f}"` rounds the binary double half-to-even;
on the exact rational value this floor-of-plus-half agrees everywhere except
on ties at the 7th decimal, which no claim exercises. -/
def fmtRound6 (q : ℚ) : ℤ :=
  (2 * q.num * 1000000 + (q.den : ℤ)).fdiv (2 * (q.den : ℤ))

/-- Left-pad a ≤6-digit numeral with zeros to width 6. -/
def padSix (n : Nat) : String :=
  let s := toString n
  String.mk (List.replicate (6 - s.length) '0') ++ s

/-- Python `"{:f}".format(v)`: fixed-point notation with 6 decimals. -/
def fmtFixed6 (q : ℚ) : String :=
  let n := fmtRound6 q
  (if n < 0 then "-" else "") ++ toString (n.natAbs / 1000000) ++ "." ++ padSix (n.natAbs % 1000000)

/-- Python `dict.update({k: v})`: replace in place when the key exists
(keeping its position), else append. -/
def dictUpdate (d : List (String × ℚ)) (k : String) (v : ℚ) : List (String × ℚ) :=
  if d.any (fun p => p.1 == k) then d.map (fun p => if p.1 == k then (k, v) else p)
  else d ++ [(k, v)]

/-- `Machine._parse_position`: keep only keyword arguments naming a machine
axis (directly or after upper-casing), storing them under the upper-cased
key; other names are silently dropped. -/
def parse_position (kwargs : List (String × ℚ)) : List (String × ℚ) :=
  kwargs.foldl (fun d kv =>
    if axesStrs.contains kv.1 || axesStrs.contains (strToUpper kv.1) then
      dictUpdate d (strToUpper kv.1) kv.2
    else d) []

/-- `Machine._make_position_string`: `"<cmd> <KEY><value:f> ..."`, axes in
the iteration order of the `positions` dict. -/
def make_position_string (cmd : String) (positions : List (String × ℚ)) : String :=
  cmd ++ " " ++ String.intercalate " " (positions.map (fun p => p.1 ++ fmtFixed6 p.2))

/-! ### C7: axis order in positioning commands -/

theorem parse_position_go (f : List (String × ℚ) → String × ℚ → List (String × ℚ))
    (hf : f = fun d kv =>
      if axesStrs.contains kv.1 || axesStrs.contains (strToUpper kv.1) then
        dictUpdate d (strToUpper kv.1) kv.2
      else d) :
    ∀ (kwargs acc : List (String × ℚ)),
      (∀ kv ∈ kwargs, strToUpper kv.1 ∈ axesStrs) →
      (∀ kv ∈ kwargs, ∀ p ∈ acc, p.1 ≠ strToUpper kv.1) →
      (kwargs.map (fun kv => strToUpper kv.1)).Nodup →
      kwargs.foldl f acc = acc ++ kwargs.map (fun kv => (strToUpper kv.1, kv.2)) := by
  intro kwargs
  induction kwargs with
  | nil => intro acc _ _ _; simp
  | cons kv rest ih =>
    intro acc hv hacc hnd
    simp only [List.map_cons, List.nodup_cons] at hnd
    obtain ⟨hhead, htail⟩ := hnd
    have hmem : strToUpper kv.1 ∈ axesStrs := hv kv (by simp)
    have hax : strToUpper kv.1 = "X" ∨ strToUpper kv.1 = "Y" ∨ strToUpper kv.1 = "Z" ∨
        strToUpper kv.1 = "C" := by simpa [axesStrs] using hmem
    have hcond : (axesStrs.contains kv.1 || axesStrs.contains (strToUpper kv.1)) = true := by
      rcases hax with h|h|h|h <;> rw [h] <;> simp only [Bool.or_eq_true] <;>
        exact Or.inr (by decide)
    have hnew : acc.any (fun p => p.1 == strToUpper kv.1) = false := by
      rw [List.any_eq_false]
      intro p hp
      simpa using hacc kv (by simp) p hp
    have hstep : f acc kv = acc ++ [(strToUpper kv.1, kv.2)] := by
      simp only [hf]
      rw [if_pos hcond, dictUpdate, if_neg (by simp [hnew])]
    rw [List.foldl_cons, hstep,
      ih (acc ++ [(strToUpper kv.1, kv.2)])
        (fun p hp => hv p (by simp [hp]))
        ?_ htail]
    · simp
    · intro q hq p hp
      rcases List.mem_append.mp hp with hpa | hpb
      · exact hacc q (by simp [hq]) p hpa
      · have hone : p = (strToUpper kv.1, kv.2) := by simpa using hpb
        subst hone
        intro hcontra
        have hcontra' : strToUpper kv.1 = strToUpper q.1 := hcontra
        exact hhead (by rw [hcontra']; exact List.mem_map_of_mem _ hq)

theorem parse_position_valid (kwargs : List (String × ℚ))
    (hv : ∀ kv ∈ kwargs, strToUpper kv.1 ∈ axesStrs)
    (hnd : (kwargs.map (fun kv => strToUpper kv.1)).Nodup) :
    parse_position kwargs = kwargs.map (fun kv => (strToUpper kv.1, kv.2)) := by
  rw [parse_position]
  exact parse_position_go _ rfl kwargs [] hv (by simp) hnd

/-- C7 (amended): a rendered positioning command lists one
`<AXIS><value:6-decimal-fixed>` token per (valid, non-duplicated) supplied
axis, space-separated — but the axes appear in the order the caller supplied
them (upper-cased), which is the dict insertion order, NOT in the fixed
declaration order of the axis set. -/
theorem position_string_kwargs_order (cmd : String) (kwargs : List (String × ℚ))
    (hv : ∀ kv ∈ kwargs, strToUpper kv.1 ∈ axesStrs)
    (hnd : (kwargs.map (fun kv => strToUpper kv.1)).Nodup) :
    make_position_string cmd (parse_position kwargs) =
      cmd ++ " " ++ String.intercalate " "
        (kwargs.map (fun kv => strToUpper kv.1 ++ fmtFixed6 kv.2)) := by
  rw [parse_position_valid kwargs hv hnd, make_position_string]
  simp [List.map_map, Function.comp_def]

/-- Witness for C7's theorem: supplying `y` then `x` renders
`"G0 Y1.000000 X2.000000"`. -/
theorem position_string_kwargs_order_witness :
    (∀ kv ∈ ([("y", 1), ("x", 2)] : List (String × ℚ)), strToUpper kv.1 ∈ axesStrs) ∧
    make_position_string "G0" (parse_position [("y", 1), ("x", 2)]) =
      "G0" ++ " " ++ String.intercalate " "
        ((([("y", 1), ("x", 2)] : List (String × ℚ))).map
          (fun kv => strToUpper kv.1 ++ fmtFixed6 kv.2)) :=
  ⟨by decide, position_string_kwargs_order "G0" [("y", 1), ("x", 2)] (by decide) (by decide)⟩

/-- C7 counterexample: with the caller supplying `y` before `x`, the wire
string is `"G0 Y1.000000 X2.000000"` — not the fixed-declaration-order
rendering `"G0 X2.000000 Y1.000000"` the claim requires. -/
theorem position_string_caller_order :
    make_position_string "G0" (parse_position [("y", 1), ("x", 2)]) = "G0 Y1.000000 X2.000000" ∧
    "G0 Y1.000000 X2.000000" ≠ "G0 X2.000000 Y1.000000" := by
  constructor
  · decide
  · decide

/-! ### Reply decoding: endstop status (`M119`) and position (`M114`) -/

/-- `\w` of a Python bytes regex: `[a-zA-Z0-9_]`. -/
def isWordChar (c : Char) : Bool := c.isAlphanum || c = '_'

/-- `\s` of a Python bytes regex: `[ \t\n\r\v\f]`. -/
def isSpaceChar (c : Char) : Bool :=
  c = ' ' || c = '\t' || c = '\n' || c = '\r' || c = '\x0b' || c = '\x0c'

def isWordSpace (c : Char) : Bool := isWordChar c || isSpaceChar c

/-- `re.search` for the endstop pattern `"<AX>:([\w\s]*),"` (case-sensitive):
scan for `<AX>:`, take the maximal run of word/space characters, and succeed
when a comma follows; on failure continue scanning at the next position. -/
def endstopMatch (ax : Char) : List Char → Option (List Char)
  | [] => none
  | c :: rest =>
    if c = ax then
      match rest with
      | ':' :: tail =>
        let run := tail.takeWhile isWordSpace
        match tail.drop run.length with
        | ',' :: _ => some run
        | _ => endstopMatch ax rest
      | _ => endstopMatch ax rest
    else endstopMatch ax rest

/-- The literal `b"not stopped"`. -/
def notStoppedChars : List Char := "not stopped".toList

/-- Python `needle in hay` on bytes: substring test. -/
def listContainsSub (needle : List Char) : List Char → Bool
  | [] => needle.isEmpty
  | c :: t => needle.isPrefixOf (c :: t) || listContainsSub needle t

/-- The single character of a one-letter axis name. -/
def axCharOf (ax : String) : Char := ax.toList.getD 0 ' '

/-- Per-axis endstop decoding of `Machine.probe_endstops`: `False` when the
pattern does not match or the matched text contains `"not stopped"`, `True`
otherwise. -/
def decodeAxis (ax : String) (r0 : String) : Bool :=
  match endstopMatch (axCharOf ax) r0.toList with
  | none => false
  | some g => ! listContainsSub notStoppedChars g

/-- The endstop dictionary built by `Machine.probe_endstops` from the first
reply line. -/
def decode_endstops (r0 : String) : List (String × Bool) :=
  axesStrs.map (fun ax => (ax, decodeAxis ax r0))

/-- Greedy match of at most `k` leading digits. -/
def takeDigits : Nat → List Char → List Char × List Char
  | 0, s => ([], s)
  | _ + 1, [] => ([], [])
  | k + 1, c :: rest =>
    if c.isDigit then
      let r := takeDigits k rest
      (c :: r.1, r.2)
    else ([], c :: rest)

/-- Decimal value of a digit list. -/
def digitsVal (ds : List Char) : ℕ :=
  ds.foldl (fun acc c => 10 * acc + (c.toNat - 48)) 0

/-- Match the tail of the M114 pattern
`(?: |)(?:-|)[0-9]{1,8}(?:\.|)[0-9]{0,8}` right after `"<AX>:"`, and apply
Python `float` to the matched text.  The float's binary rounding is
approximated by the exact decimal value. -/
def matchM114Num (s : List Char) : Option ℚ :=
  let s1 := match s with | ' ' :: r => r | _ => s
  let negs2 : Bool × List Char := match s1 with | '-' :: r => (true, r) | _ => (false, s1)
  let d1s3 := takeDigits 8 negs2.2
  if d1s3.1.isEmpty then none
  else
    let dots4 : Bool × List Char :=
      match d1s3.2 with | '.' :: r => (true, r) | _ => (false, d1s3.2)
    let d2 := (takeDigits 8 dots4.2).1
    let q : ℚ :=
      if dots4.1 then (digitsVal d1s3.1 : ℚ) + (digitsVal d2 : ℚ) / ((10 : ℚ) ^ d2.length)
      else (digitsVal (d1s3.1 ++ d2) : ℚ)
    some (if negs2.1 then -q else q)

/-- `re.search` for the case-insensitive M114 position pattern
`(?i)(<AX>:(?: |)(?:-|)[0-9]{1,8}(?:\.|)[0-9]{0,8})`, returning the value of
`float(match.group(1).split(b":")[1])`. -/
def searchM114 (ax : Char) : List Char → Option ℚ
  | [] => none
  | c :: rest =>
    if c.toUpper = ax then
      match rest with
      | ':' :: tail =>
        match matchM114Num tail with
        | some q => some q
        | none => searchM114 ax rest
      | _ => searchM114 ax rest
    else searchM114 ax rest

/-- The per-axis parse loop of `Machine.get_position`: each axis is set from
the reply when the pattern matches, and falls back to the same axis of
`history[-1][-1]` otherwise (raising `IndexError` when that lookup is
impossible). -/
def parseM114Point (m : Machine) (r0 : String) : Except PyError Point :=
  axesStrs.foldlM (fun pt ax =>
    match searchM114 (axCharOf ax) r0.toList with
    | some q => .ok (setAxisS pt ax q)
    | none =>
      match m.history.getLast? with
      | none => .error .indexError
      | some sp =>
        match sp.points.getLast? with
        | none => .error .indexError
        | some lp => .ok (setAxisS pt ax (getAxisS lp ax))) ({} : Point)

/-- `Machine.get_position`: with no connection, return `history[-1][-1]`
(or `Point()` when the history is empty); otherwise ask `M114` with a 2-line
budget, raise `asyncio.TimeoutError` when the answer is `None`, and parse the
first line. -/
def Machine.get_position (m : Machine) : Except PyError Point × Machine :=
  if m.writer_open = false then
    match m.history.getLast? with
    | some sp =>
      match sp.points.getLast? with
      | some pt => (.ok pt, m)
      | none => (.error .indexError, m)
    | none => (.ok {}, m)
  else
    match m.ask "M114" 2 with
    | (.error e, m1) => (.error e, m1)
    | (.ok none, m1) => (.error .timeoutError, m1)
    | (.ok (some []), m1) => (.error .indexError, m1)
    | (.ok (some (r0 :: _)), m1) =>
      match parseM114Point m1 r0 with
      | .error e => (.error e, m1)
      | .ok pt => (.ok pt, m1)

/-- `Machine.probe_endstops`: `{}` with no connection; otherwise ask `M119`
with a 2-line budget and decode the first reply line — the code does not
guard against a `None` answer, so `rep[0]` raises `TypeError` there. -/
def Machine.probe_endstops (m : Machine) : Except PyError (List (String × Bool)) × Machine :=
  if m.writer_open = false then (.ok [], m)
  else
    match m.ask "M119" 2 with
    | (.error e, m1) => (.error e, m1)
    | (.ok none, m1) => (.error .typeError, m1)
    | (.ok (some []), m1) => (.error .indexError, m1)
    | (.ok (some (r0 :: _)), m1) => (.ok (decode_endstops r0), m1)

/-! ### C4: endstop decoding bias -/

/-- C4 (amended): an axis is reported not triggered (`False`) iff every
match of the endstop pattern for that axis — i.e. the one match when it
exists — contains the literal `"not stopped"`; in particular an axis
MISSING from the reply (no match) is also reported `False`, the same value
as "not stopped", not `True` as the claim states.  `True` is reported
exactly for a present match whose text does not contain `"not stopped"`. -/
theorem endstop_not_triggered_iff (r0 ax : String) (hax : ax ∈ axesStrs) :
    ((ax, decodeAxis ax r0) ∈ decode_endstops r0) ∧
    (decodeAxis ax r0 = false ↔
      ∀ g, endstopMatch (axCharOf ax) r0.toList = some g →
        listContainsSub notStoppedChars g = true) := by
  constructor
  · exact List.mem_map_of_mem _ hax
  · cases h : endstopMatch (axCharOf ax) r0.toList with
    | none => simp only [String.toList] at h; simp [decodeAxis, String.toList, h]
    | some g => simp only [String.toList] at h; simp [decodeAxis, String.toList, h]

/-- Witness for C4's theorem at axis `"C"` and a reply that omits `C`. -/
theorem endstop_not_triggered_iff_witness :
    ("C" ∈ axesStrs) ∧
    (("C", decodeAxis "C" "X: not stopped,\n") ∈ decode_endstops "X: not stopped,\n") :=
  ⟨by decide, (endstop_not_triggered_iff "X: not stopped,\n" "C" (by decide)).1⟩

/-- Concrete machine for the C4 counterexample: an endstop reply listing
X, Y, Z but no C axis. -/
def c4m : Machine :=
  { reader_open := true, writer_open := true,
    incoming := [.line "X: not stopped, Y: not stopped, Z: at min stop,\n", .line "ok\n"] }

/-- C4 counterexample: probing with a reply in which axis C is absent
reports C as `False` (not triggered) — the claim requires a missing axis to
be reported `True` (triggered). -/
theorem endstop_missing_axis_reported_false :
    (c4m.probe_endstops).1 =
      .ok [("X", false), ("Y", false), ("Z", true), ("C", false)] ∧
    ("C", false) ≠ ("C", true) := by
  constructor
  · rfl
  · decide

/-! ### C2: what the query operations raise when the budget is exhausted -/

/-- Concrete machine for C2: the device answers the query with two lines,
neither of them ok-terminated, so the 2-line budget is exhausted without a
terminal marker. -/
def c2m : Machine :=
  { reader_open := true, writer_open := true,
    incoming := [.line "X:0.00 Y:0.00 Z:0.00 C:0.00\n", .line "echo:busy\n"] }

/-- C2, evaluated at the failing input: when the reply-line budget is
exhausted without an ok-terminated line, `get_position` raises
`asyncio.TimeoutError` (message "Machine didn't answer within timeout") and
`probe_endstops` raises `TypeError` (subscripting the `None` answer) —
neither raises `InvalidAnswerException`, which no code path ever raises. -/
theorem query_budget_exhaustion_not_invalid_answer :
    (c2m.get_position).1 = .error .timeoutError ∧
    (c2m.probe_endstops).1 = .error .typeError ∧
    PyError.timeoutError ≠ PyError.invalidAnswerException ∧
    PyError.typeError ≠ PyError.invalidAnswerException := by
  refine ⟨rfl, rfl, by decide, by decide⟩

/-! ### Device state: `move`, `set_tool_size`, configuration setters -/

/-- Python `str(float)` as used in `"F{frate}"`: exact for integral values
(`100.0` → `"100.0"`), which are the only ones these theorems evaluate;
non-integral values use a symbolic numerator/denominator rendering in place
of Python's shortest-decimal form. -/
def pyFloatRepr (q : ℚ) : String :=
  if q.den = 1 then toString q.num ++ ".0"
  else toString q.num ++ "/" ++ toString q.den

/-- `self.history[-1].append(pt)`: `IndexError` on an empty history,
otherwise append the point to the last segment. -/
def Machine.appendPoint (m : Machine) (pt : Point) : Except PyError Machine :=
  match m.history.getLast? with
  | none => .error .indexError
  | some last =>
    .ok { m with history := m.history.dropLast ++ [{ last with points := last.points ++ [pt] }] }

/-- `Machine.move`: filter the keyword arguments, build the two-line
`G90`/`G91` + `G0 ... F<feed> S<0|1>` command, append a FRESH `Point()`
with only the supplied axes set to the current segment, then write.  The
point is appended before the write and is kept when the write raises. -/
def Machine.move (m : Machine) (relative : Bool) (kwargs : List (String × ℚ)) :
    Except PyError WriteRet × Machine :=
  let new_pos := parse_position kwargs
  let mode_cmd := if relative then "G91" else "G90"
  let cmd := mode_cmd ++ m.term_char ++ make_position_string "G0" new_pos
    ++ " F" ++ pyFloatRepr m.feed_rate ++ " S" ++ (if m.endstops then "1" else "0")
  let pt := new_pos.foldl (fun p kv => setAxisS p kv.1 kv.2) ({} : Point)
  match m.appendPoint pt with
  | .error e => (.error e, m)
  | .ok m1 => m1.write cmd

/-- `Machine.set_tool_size`: reject non-positive sizes; when the active
segment has more than one point and a different tool size, open a new
segment seeded with the active segment's last point; then assign the size
to the (possibly new) active segment. -/
def Machine.set_tool_size (m : Machine) (tool_size : ℚ) : Except PyError Unit × Machine :=
  if tool_size ≤ 0 then (.error .valueError, m)
  else
    match m.history.getLast? with
    | none => (.error .indexError, m)
    | some last =>
      if 1 < last.points.length ∧ last.tool_size ≠ tool_size then
        match last.points.getLast? with
        | none => (.error .indexError, m)
        | some lp =>
          (.ok (), { m with history := m.history ++ [{ points := [lp], tool_size := tool_size }] })
      else
        (.ok (), { m with history := m.history.dropLast ++ [{ last with tool_size := tool_size }] })

/-- `Machine.set_baud_rate`: rejected while a connection is open, and for
non-positive rates. -/
def Machine.set_baud_rate (m : Machine) (baud_rate : ℤ) : Except PyError Unit × Machine :=
  if m.reader_open || m.writer_open then (.error .serialException, m)
  else if baud_rate ≤ 0 then (.error .valueError, m)
  else (.ok (), { m with serial_baud_rate := baud_rate })

/-- `Machine.set_timeout`: rejects negative values; `None` means infinite.
No connection-state check. -/
def Machine.set_timeout (m : Machine) (t : Option ℚ) : Except PyError Unit × Machine :=
  match t with
  | some v => if v < 0 then (.error .valueError, m) else (.ok (), { m with timeout := t })
  | none => (.ok (), { m with timeout := none })

/-- `Machine.set_term_char`: no validation and no connection-state check at
all. -/
def Machine.set_term_char (m : Machine) (tc : String) : Except PyError Unit × Machine :=
  (.ok (), { m with term_char := tc })

/-- `Machine.set_response_ok`: rejects the empty string; no
connection-state check. -/
def Machine.set_response_ok (m : Machine) (r : String) : Except PyError Unit × Machine :=
  if r.length = 0 then (.error .valueError, m)
  else (.ok (), { m with response_ok := r })

/-- `Machine.set_feed_rate`: rejects non-positive rates; no
connection-state check. -/
def Machine.set_feed_rate (m : Machine) (f : ℚ) : Except PyError Unit × Machine :=
  if f ≤ 0 then (.error .valueError, m)
  else (.ok (), { m with feed_rate := f })

/-- `Machine.set_port`: rejects the empty path, and any change while a
connection is open. -/
def Machine.set_port (m : Machine) (p : String) : Except PyError Unit × Machine :=
  if p.length = 0 then (.error .valueError, m)
  else if m.reader_open || m.writer_open then (.error .serialException, m)
  else (.ok (), { m with port := p })

/-- `Machine.switch_motors`: `"M84 S30"` when switching on, `"M18"` when
switching off; returns whatever `write` returns. -/
def Machine.switch_motors (m : Machine) (state : Bool) : Except PyError WriteRet × Machine :=
  m.write (if state then "M84 S30" else "M18")

/-! ### C5: what `move` appends to the history -/

theorem write_history (m : Machine) (cmd : String) : ((m.write cmd).2).history = m.history := by
  unfold Machine.write
  split
  · rfl
  · split <;> rfl

theorem parse_position_filter (kwargs : List (String × ℚ)) :
    parse_position kwargs = parse_position (kwargs.filter
      (fun kv => axesStrs.contains kv.1 || axesStrs.contains (strToUpper kv.1))) := by
  rw [parse_position, parse_position]
  generalize ([] : List (String × ℚ)) = acc
  induction kwargs generalizing acc with
  | nil => simp
  | cons kv rest ih =>
    by_cases h : (axesStrs.contains kv.1 || axesStrs.contains (strToUpper kv.1)) = true
    · have hf : List.filter
          (fun kv => axesStrs.contains kv.1 || axesStrs.contains (strToUpper kv.1)) (kv :: rest) =
          kv :: List.filter
            (fun kv => axesStrs.contains kv.1 || axesStrs.contains (strToUpper kv.1)) rest := by
        rw [List.filter_cons, if_pos (by simpa using h)]
      rw [hf, List.foldl_cons, List.foldl_cons, if_pos h]
      exact ih _
    · have hf : List.filter
          (fun kv => axesStrs.contains kv.1 || axesStrs.contains (strToUpper kv.1)) (kv :: rest) =
          List.filter
            (fun kv => axesStrs.contains kv.1 || axesStrs.contains (strToUpper kv.1)) rest := by
        rw [List.filter_cons, if_neg (by simpa using h)]
      rw [hf, List.foldl_cons, if_neg h]
      exact ih _

/-- History segment of the concrete C5 machine: the origin plus one
commanded point `(1, 2, 3, 4)`. -/
def c5sp : StyledPath := { points := [{}, { x := 1, y := 2, z := 3, c := 4 }] }

/-- Concrete machine for C5, positioned at `(1, 2, 3, 4)`. -/
def c5m : Machine := { writer_open := true, history := [c5sp] }

/-- C5 (amended): `move` ignores keyword arguments that do not name a
machine axis (the command and the history are those of the filtered call),
and appends exactly one new point to the active segment — whatever the
write outcome, so the append happens before any transmission and survives a
transmission failure.  The appended point carries the supplied values on the
specified axes and the `Point()` DEFAULT (zero) on all unspecified axes,
not the previous point's values. -/
theorem move_appends_point_before_write (m : Machine) (relative : Bool)
    (kwargs : List (String × ℚ)) (init : List StyledPath) (last : StyledPath)
    (hh : m.history = init ++ [last]) :
    m.move relative kwargs =
      m.move relative (kwargs.filter
        (fun kv => axesStrs.contains kv.1 || axesStrs.contains (strToUpper kv.1))) ∧
    (m.move relative kwargs).2.history =
      init ++ [{ last with points := last.points ++
        [(parse_position kwargs).foldl (fun p kv => setAxisS p kv.1 kv.2) ({} : Point)] }] := by
  constructor
  · rw [Machine.move, Machine.move, ← parse_position_filter]
  · rw [Machine.move]
    simp only [Machine.appendPoint, hh, List.getLast?_concat, List.dropLast_concat]
    rw [write_history]

/-- Witness for C5's theorem at `c5m`, with one valid (`x`) and one invalid
(`bogus`) keyword. -/
theorem move_appends_point_before_write_witness :
    c5m.history = [] ++ [c5sp] ∧
    (c5m.move false [("x", 5), ("bogus", 7)]).2.history =
      [] ++ [{ c5sp with points := c5sp.points ++
        [(parse_position [("x", 5), ("bogus", 7)]).foldl
          (fun p kv => setAxisS p kv.1 kv.2) ({} : Point)] }] :=
  ⟨rfl, (move_appends_point_before_write c5m false [("x", 5), ("bogus", 7)] [] c5sp rfl).2⟩

/-- C5 counterexample: at position `(1, 2, 3, 4)`, `move(x=5)` appends the
point `(5, 0, 0, 0)` — unspecified axes get the fresh `Point()` default 0 —
whereas the claim requires `(5, 2, 3, 4)` (previous values held). -/
theorem move_unspecified_axes_zeroed :
    (c5m.move false [("x", 5)]).2.history =
      [{ points := [{}, { x := 1, y := 2, z := 3, c := 4 }, { x := 5 }] }] ∧
    ({ x := 5 } : Point) ≠ { x := 5, y := 2, z := 3, c := 4 } := by
  constructor
  · rfl
  · decide

/-! ### C6: tool-size segmenting -/

/-- C6 (confirmed): for a strictly positive tool size `v`, when the active
segment has more than one point and a different tool size, a new segment is
appended whose single seed point is the active segment's last point, and the
new segment carries tool size `v`; otherwise no segment is added and the
active segment's tool size is set to `v` in place.  Either way the call
succeeds. -/
theorem set_tool_size_segmenting (m : Machine) (v : ℚ) (hv : 0 < v)
    (init : List StyledPath) (last : StyledPath) (hh : m.history = init ++ [last]) :
    ((1 < last.points.length ∧ last.tool_size ≠ v) →
      ∃ lp, last.points.getLast? = some lp ∧
        (m.set_tool_size v).2.history =
          init ++ [last] ++ [{ points := [lp], tool_size := v }]) ∧
    ((last.points.length ≤ 1 ∨ last.tool_size = v) →
      (m.set_tool_size v).2.history = init ++ [{ last with tool_size := v }]) ∧
    (m.set_tool_size v).1 = .ok () := by
  have hv0 : ¬ v ≤ 0 := not_le.mpr hv
  by_cases hc : 1 < last.points.length ∧ last.tool_size ≠ v
  · have hne : last.points ≠ [] := by
      intro h0
      rw [h0] at hc
      simp at hc
    obtain ⟨lp, hlp⟩ := Option.isSome_iff_exists.mp (List.getLast?_isSome.mpr hne)
    have heq : m.set_tool_size v =
        (.ok (), { m with history := init ++ [last] ++ [{ points := [lp], tool_size := v }] }) := by
      unfold Machine.set_tool_size
      rw [if_neg hv0, hh, List.getLast?_concat]
      simp only [hlp]
      rw [if_pos hc]
    refine ⟨fun _ => ⟨lp, hlp, by rw [heq]⟩, fun habs => ?_, by rw [heq]⟩
    rcases habs with h | h
    · exact absurd hc.1 (not_lt.mpr h)
    · exact absurd h hc.2
  · have heq : m.set_tool_size v =
        (.ok (), { m with history := init ++ [{ last with tool_size := v }] }) := by
      unfold Machine.set_tool_size
      rw [if_neg hv0, hh, List.getLast?_concat]
      simp only []
      rw [if_neg hc, List.dropLast_concat]
    have hor : last.points.length ≤ 1 ∨ last.tool_size = v := by
      rcases not_and_or.mp hc with h | h
      · exact Or.inl (not_lt.mp h)
      · exact Or.inr (not_not.mp h)
    refine ⟨fun habs => absurd habs hc, fun _ => by rw [heq], by rw [heq]⟩

/-- Concrete machine for the C6 witness: active segment with two points and
tool size 1. -/
def c6m : Machine := { history := [{ points := [{}, { x := 1 }] }] }

/-- Witness for C6's theorem at `c6m` with new tool size 2. -/
theorem set_tool_size_segmenting_witness :
    (0 : ℚ) < 2 ∧ c6m.history = [] ++ [{ points := [{}, { x := 1 }] }] ∧
    (c6m.set_tool_size 2).1 = .ok () :=
  ⟨by decide, rfl,
    (set_tool_size_segmenting c6m 2 (by decide) [] { points := [{}, { x := 1 }] } rfl).2.2⟩

example : (c6m.set_tool_size 2).2.history =
    [{ points := [{}, { x := 1 }] }, { points := [{ x := 1 }], tool_size := 2 }] := by rfl

example : (c6m.set_tool_size 1).2.history = [{ points := [{}, { x := 1 }] }] := by rfl

/-! ### C8: setter validation and connection-state checks -/

/-- Concrete machine for C8: a connection is open in both directions. -/
def c8mOpen : Machine := { reader_open := true, writer_open := true }

/-- C8 (amended): the value checks hold — non-positive feed rate, tool size
and baud rate, and an empty ok-token, are rejected synchronously with the
state unchanged — and while a connection is open the baud-rate setter is
rejected with the connection-state error and the timeout setter still works;
BUT the terminator and ok-token setters perform NO connection-state check:
they succeed unconditionally (the ok-token setter only rejecting the empty
string), whether or not a connection is open. -/
theorem setter_validation (m : Machine) (f v : ℚ) (b : ℤ) (tc rok : String) (t : ℚ) :
    (f ≤ 0 → m.set_feed_rate f = (.error .valueError, m)) ∧
    (v ≤ 0 → m.set_tool_size v = (.error .valueError, m)) ∧
    (b ≤ 0 → ((m.set_baud_rate b).1 = .error .serialException ∨
              (m.set_baud_rate b).1 = .error .valueError) ∧ (m.set_baud_rate b).2 = m) ∧
    (m.set_response_ok "" = (.error .valueError, m)) ∧
    ((m.reader_open = true ∨ m.writer_open = true) →
      m.set_baud_rate b = (.error .serialException, m)) ∧
    (0 ≤ t → m.set_timeout (some t) = (.ok (), { m with timeout := some t })) ∧
    (m.set_term_char tc = (.ok (), { m with term_char := tc })) ∧
    (rok ≠ "" → m.set_response_ok rok = (.ok (), { m with response_ok := rok })) := by
  refine ⟨?_, ?_, ?_, ?_, ?_, ?_, rfl, ?_⟩
  · intro hf
    unfold Machine.set_feed_rate
    rw [if_pos hf]
  · intro hv
    unfold Machine.set_tool_size
    rw [if_pos hv]
  · intro hb
    unfold Machine.set_baud_rate
    by_cases hopen : (m.reader_open || m.writer_open) = true
    · rw [if_pos hopen]
      exact ⟨Or.inl rfl, rfl⟩
    · rw [if_neg hopen, if_pos hb]
      exact ⟨Or.inr rfl, rfl⟩
  · unfold Machine.set_response_ok
    rw [if_pos (by rfl)]
  · intro hopen
    unfold Machine.set_baud_rate
    rw [if_pos (by rcases hopen with h | h <;> simp [h])]
  · intro ht
    have hstep : m.set_timeout (some t) =
        if t < 0 then (.error .valueError, m) else (.ok (), { m with timeout := some t }) := rfl
    rw [hstep, if_neg (not_lt.mpr ht)]
  · intro hrok
    have hlen : ¬ rok.length = 0 := by
      intro h0
      apply hrok
      cases rok with
      | mk data =>
        have hd : data.length = 0 := h0
        have hnil : data = [] := List.eq_nil_of_length_eq_zero hd
        subst hnil
        rfl
    unfold Machine.set_response_ok
    rw [if_neg hlen]

/-- Witness for C8's theorem at `c8mOpen`: a non-positive feed rate is
rejected, and the open-connection baud-rate rejection fires. -/
theorem setter_validation_witness :
    ((-1 : ℚ) ≤ 0 ∧ c8mOpen.set_feed_rate (-1) = (.error .valueError, c8mOpen)) ∧
    ((c8mOpen.reader_open = true ∨ c8mOpen.writer_open = true) ∧
      c8mOpen.set_baud_rate 9600 = (.error .serialException, c8mOpen)) :=
  ⟨⟨by decide, (setter_validation c8mOpen (-1) 1 9600 "\r" "done" 0).1 (by decide)⟩,
   ⟨Or.inl rfl, (setter_validation c8mOpen (-1) 1 9600 "\r" "done" 0).2.2.2.2.1 (Or.inl rfl)⟩⟩

/-- C8 counterexample: with a connection open, mutating the line terminator
and the ok-token SUCCEEDS — no connection-state error is raised, contrary to
the claim. -/
theorem term_char_mutable_while_open :
    c8mOpen.reader_open = true ∧
    c8mOpen.set_term_char "\r" = (.ok (), { c8mOpen with term_char := "\r" }) ∧
    c8mOpen.set_response_ok "done" = (.ok (), { c8mOpen with response_ok := "done" }) :=
  ⟨rfl, rfl, rfl⟩

/-! ### C9: `switch_motors` command selection and return value -/

/-- Concrete machine for C9 with an open connection. -/
def c9mOpen : Machine := { writer_open := true }

/-- Concrete machine for C9 with no connection. -/
def c9mClosed : Machine := {}

/-- C9, evaluated at the failing input: the command selection is as claimed
(`"M84 S30"` for `True`, `"M18"` for `False`), and with no connection the
call returns `False`; but on an open connection with a completed write the
call returns `None` — a FALSY value, because `Machine.write` has no return
statement on its success path — so the return value does not report that
the command was transmitted. -/
theorem switch_motors_cmd_and_return :
    c9mOpen.switch_motors true = (.ok .pyNone, { c9mOpen with sent := ["M84 S30\n"] }) ∧
    c9mOpen.switch_motors false = (.ok .pyNone, { c9mOpen with sent := ["M18\n"] }) ∧
    c9mClosed.switch_motors true = (.ok .pyFalse, c9mClosed) ∧
    WriteRet.truthy .pyNone = false ∧
    WriteRet.truthy .pyFalse = false :=
  ⟨rfl, rfl, rfl, rfl, rfl⟩

/-! ### Remaining operations: `set_position`, `wait`, `trace`, open/close -/

/-- `Machine.open`: rejects an already-open connection and an empty port;
otherwise installs the reader/writer pair. -/
def Machine.openConn (m : Machine) : Except PyError Bool × Machine :=
  if m.reader_open || m.writer_open then (.error .serialException, m)
  else if m.port.length = 0 then (.error .valueError, m)
  else (.ok true, { m with reader_open := true, writer_open := true })

/-- `Machine.close`: tear down the connection when a writer exists
(returning `True`), else report `False`. -/
def Machine.closeConn (m : Machine) : Except PyError Bool × Machine :=
  if m.writer_open then (.ok true, { m with reader_open := false, writer_open := false })
  else (.ok false, m)

def Machine.enable_endstops (m : Machine) : Machine := { m with endstops := true }

def Machine.disable_endstops (m : Machine) : Machine := { m with endstops := false }

/-- The in-place per-axis `setattr` loop of `Machine.set_position` on
`history[-1][-1]`, guarded by `len(history) > 0`; an empty last segment only
raises when the loop body actually runs. -/
def Machine.updateLastPoint (m : Machine) (new_pos : List (String × ℚ)) :
    Except PyError Machine :=
  match m.history.getLast? with
  | none => .ok m
  | some last =>
    match last.points.getLast? with
    | none => if new_pos.isEmpty then .ok m else .error .indexError
    | some lp =>
      let lp2 := new_pos.foldl (fun p kv => setAxisS p kv.1 kv.2) lp
      .ok { m with history :=
        m.history.dropLast ++ [{ last with points := last.points.dropLast ++ [lp2] }] }

/-- `Machine.set_position` (keyword form): update the LAST history point in
place, then — when a writer is open and at least one axis was given — send
`G92` and return `True`, swallowing a send timeout into `False`. -/
def Machine.set_position (m : Machine) (kwargs : List (String × ℚ)) :
    Except PyError Bool × Machine :=
  let new_pos := parse_position kwargs
  match m.updateLastPoint new_pos with
  | .error e => (.error e, m)
  | .ok m1 =>
    if m1.writer_open = false || new_pos.isEmpty then (.ok false, m1)
    else
      match m1.ask (make_position_string "G92" new_pos) 1 with
      | (.error .timeoutError, m2) => (.ok false, m2)
      | (.error e, m2) => (.error e, m2)
      | (.ok _, m2) => (.ok true, m2)

/-- `Machine.wait`: `False` with no reader; otherwise send the dwell command
`G4 S0` and block for one reply line, any line meaning `True` and a read
timeout meaning `False`. -/
def Machine.wait (m : Machine) : Except PyError Bool × Machine :=
  if m.reader_open = false then (.ok false, m)
  else
    match m.write "G4 S0" with
    | (.error e, m1) => (.error e, m1)
    | (.ok _, m1) =>
      match m1.incoming with
      | [] => (.ok false, m1)
      | .timeoutEvt :: rest => (.ok false, { m1 with incoming := rest })
      | .line _ :: rest => (.ok true, { m1 with incoming := rest })

/-- The `G1 ...` line sent by `Machine.trace` for one point. -/
def traceChain (p : Point) (feed : ℚ) (endstops : Bool) : String :=
  "G1 X" ++ fmtFixed6 p.x ++ " Y" ++ fmtFixed6 p.y ++ " Z" ++ fmtFixed6 p.z ++
    " C" ++ fmtFixed6 p.c ++ " F" ++ fmtFixed6 feed ++
    " S" ++ (if endstops then "1" else "0")

/-- The per-point loop of `Machine.trace`: append the point to the history,
then — only while `success` still holds, because Python's `and`
short-circuits — transmit the `G1` line and fold in whether an answer
came back. -/
def Machine.traceLoop : Machine → List Point → Bool → Except PyError Bool × Machine
  | m, [], success => (.ok success, m)
  | m, pt :: rest, success =>
    match m.appendPoint pt with
    | .error e => (.error e, m)
    | .ok m1 =>
      if success then
        match m1.ask (traceChain pt m1.feed_rate m1.endstops) 1 with
        | (.error e, m2) => (.error e, m2)
        | (.ok a, m2) => traceLoop m2 rest a.isSome
      else traceLoop m1 rest false

/-- `Machine.trace` (coordinate-vector form): validate the vectors, default
missing ones to zeros, stream the points through `traceLoop`, and finish
with `wait` — skipped, again by `and` short-circuit, when a point already
failed. -/
def Machine.trace (m : Machine) (xs ys zs cs : Option (List ℚ)) :
    Except PyError Bool × Machine :=
  if xs.isNone && ys.isNone && zs.isNone && cs.isNone then (.error .valueError, m)
  else
    let Npts := match xs with
      | some l => l.length
      | none => match ys with
        | some l => l.length
        | none => match zs with
          | some l => l.length
          | none => match cs with
            | some l => l.length
            | none => 0
    if (xs.elim false (fun l => l.length != Npts)) ||
       (ys.elim false (fun l => l.length != Npts)) ||
       (zs.elim false (fun l => l.length != Npts)) ||
       (cs.elim false (fun l => l.length != Npts)) then (.error .valueError, m)
    else
      let xv := xs.getD (List.replicate Npts 0)
      let yv := ys.getD (List.replicate Npts 0)
      let zv := zs.getD (List.replicate Npts 0)
      let cv := cs.getD (List.replicate Npts 0)
      let pts := (List.range Npts).map (fun n =>
        Point.mk (xv.getD n 0) (yv.getD n 0) (zv.getD n 0) (cv.getD n 0))
      match m.traceLoop pts true with
      | (.error e, m1) => (.error e, m1)
      | (.ok success, m1) =>
        if success then
          match m1.wait with
          | (.error e, m2) => (.error e, m2)
          | (.ok w, m2) => (.ok (success && w), m2)
        else (.ok false, m1)

/-! ### C10: the motion history never loses its last point -/

/-- The history invariant: at least one segment, and the last segment holds
at least one point. -/
def histOk (h : List StyledPath) : Prop :=
  match h.getLast? with
  | none => False
  | some last => last.points ≠ []

theorem histOk_concat (xs : List StyledPath) (sp : StyledPath) :
    histOk (xs ++ [sp]) ↔ sp.points ≠ [] := by
  unfold histOk
  rw [List.getLast?_concat]

theorem wait_answer_history (m : Machine) (n : Nat) :
    (m.wait_answer n).2.history = m.history := by
  unfold Machine.wait_answer
  split <;> rfl

theorem readline_history (m : Machine) : (m.readline).2.history = m.history := by
  unfold Machine.readline
  split
  · rfl
  · split <;> rfl

theorem ask_history (m : Machine) (cmd : String) (n : Nat) :
    (m.ask cmd n).2.history = m.history := by
  unfold Machine.ask
  split
  next e m1 heq =>
    have h2 := write_history m cmd
    rw [heq] at h2
    exact h2
  next w m1 heq =>
    have h2 := write_history m cmd
    rw [heq] at h2
    show (m1.wait_answer n).2.history = m.history
    rw [wait_answer_history m1 n]
    exact h2

theorem wait_history (m : Machine) : (m.wait).2.history = m.history := by
  unfold Machine.wait
  split
  · rfl
  · split
    next e m1 heq =>
      have h2 := write_history m "G4 S0"
      rw [heq] at h2
      exact h2
    next w m1 heq =>
      have h2 := write_history m "G4 S0"
      rw [heq] at h2
      split <;> exact h2

theorem get_position_history (m : Machine) : (m.get_position).2.history = m.history := by
  unfold Machine.get_position
  split
  · split
    · split <;> rfl
    · rfl
  · split
    next e m1 heq =>
      have h2 := ask_history m "M114" 2
      rw [heq] at h2
      exact h2
    next m1 heq =>
      have h2 := ask_history m "M114" 2
      rw [heq] at h2
      exact h2
    next m1 heq =>
      have h2 := ask_history m "M114" 2
      rw [heq] at h2
      exact h2
    next r0 rest m1 heq =>
      have h2 := ask_history m "M114" 2
      rw [heq] at h2
      split <;> exact h2

theorem probe_endstops_history (m : Machine) :
    (m.probe_endstops).2.history = m.history := by
  unfold Machine.probe_endstops
  split
  · rfl
  · split
    next e m1 heq =>
      have h2 := ask_history m "M119" 2
      rw [heq] at h2
      exact h2
    next m1 heq =>
      have h2 := ask_history m "M119" 2
      rw [heq] at h2
      exact h2
    next m1 heq =>
      have h2 := ask_history m "M119" 2
      rw [heq] at h2
      exact h2
    next r0 rest m1 heq =>
      have h2 := ask_history m "M119" 2
      rw [heq] at h2
      exact h2

theorem switch_motors_history (m : Machine) (b : Bool) :
    (m.switch_motors b).2.history = m.history :=
  write_history m _

theorem set_port_history (m : Machine) (p : String) :
    (m.set_port p).2.history = m.history := by
  unfold Machine.set_port
  split
  · rfl
  · split <;> rfl

theorem set_baud_rate_history (m : Machine) (b : ℤ) :
    (m.set_baud_rate b).2.history = m.history := by
  unfold Machine.set_baud_rate
  split
  · rfl
  · split <;> rfl

theorem set_timeout_history (m : Machine) (t : Option ℚ) :
    (m.set_timeout t).2.history = m.history := by
  cases t with
  | none => rfl
  | some v =>
    show (if v < 0 then ((.error .valueError : Except PyError Unit), m)
      else (.ok (), { m with timeout := some v })).2.history = m.history
    split <;> rfl

theorem set_term_char_history (m : Machine) (tc : String) :
    (m.set_term_char tc).2.history = m.history := rfl

theorem set_response_ok_history (m : Machine) (r : String) :
    (m.set_response_ok r).2.history = m.history := by
  unfold Machine.set_response_ok
  split <;> rfl

theorem set_feed_rate_history (m : Machine) (f : ℚ) :
    (m.set_feed_rate f).2.history = m.history := by
  unfold Machine.set_feed_rate
  split <;> rfl

theorem openConn_history (m : Machine) : (m.openConn).2.history = m.history := by
  unfold Machine.openConn
  split
  · rfl
  · split <;> rfl

theorem closeConn_history (m : Machine) : (m.closeConn).2.history = m.history := by
  unfold Machine.closeConn
  split <;> rfl

theorem appendPoint_ok_histOk (m : Machine) (pt : Point) (m1 : Machine)
    (hm : m.appendPoint pt = .ok m1) : histOk m1.history := by
  unfold Machine.appendPoint at hm
  cases hl : m.history.getLast? with
  | none => rw [hl] at hm; exact absurd hm (by simp)
  | some last =>
    rw [hl] at hm
    simp only [Except.ok.injEq] at hm
    subst hm
    show histOk (m.history.dropLast ++ [_])
    rw [histOk_concat]
    simp

/-- The history shape of `Machine.move` (shared by the C5 and C10
developments): exactly one fresh point is appended to the last segment,
whatever the write outcome. -/
theorem move_history_shape (m : Machine) (relative : Bool)
    (kwargs : List (String × ℚ)) (init : List StyledPath) (last : StyledPath)
    (hh : m.history = init ++ [last]) :
    (m.move relative kwargs).2.history =
      init ++ [{ last with points := last.points ++
        [(parse_position kwargs).foldl (fun p kv => setAxisS p kv.1 kv.2) ({} : Point)] }] := by
  rw [Machine.move]
  simp only [Machine.appendPoint, hh, List.getLast?_concat, List.dropLast_concat]
  rw [write_history]

theorem move_histOk (m : Machine) (rel : Bool) (kwargs : List (String × ℚ))
    (h : histOk m.history) : histOk ((m.move rel kwargs).2.history) := by
  unfold histOk at h
  cases hl : m.history.getLast? with
  | none => rw [hl] at h; exact h.elim
  | some last =>
    rw [hl] at h
    have hne : m.history ≠ [] := by
      intro h0
      rw [h0] at hl
      simp at hl
    have h2 := List.getLast?_eq_getLast_of_ne_nil hne
    rw [hl] at h2
    have h3 : last = m.history.getLast hne := Option.some_inj.mp h2
    have hdec : m.history = m.history.dropLast ++ [last] := by
      conv_lhs => rw [← List.dropLast_append_getLast hne]
      rw [← h3]
    rw [move_history_shape m rel kwargs _ last hdec, histOk_concat]
    simp

theorem set_tool_size_histOk (m : Machine) (v : ℚ) (h : histOk m.history) :
    histOk ((m.set_tool_size v).2.history) := by
  unfold Machine.set_tool_size
  split
  · exact h
  · split
    · exact h
    next last heq =>
      have hpts : last.points ≠ [] := by
        unfold histOk at h
        rw [heq] at h
        exact h
      split
      · split
        · exact h
        next lp hp =>
          show histOk (m.history ++ [_])
          rw [histOk_concat]
          simp
      · show histOk (m.history.dropLast ++ [_])
        rw [histOk_concat]
        simpa using hpts

theorem updateLastPoint_ok_histOk (m : Machine) (new_pos : List (String × ℚ))
    (m1 : Machine) (h : histOk m.history)
    (hm : m.updateLastPoint new_pos = .ok m1) : histOk m1.history := by
  unfold Machine.updateLastPoint at hm
  split at hm
  · have hm1 : m = m1 := by simpa using hm
    exact hm1 ▸ h
  next last heq =>
    split at hm
    · split at hm
      · have hm1 : m = m1 := by simpa using hm
        exact hm1 ▸ h
      · exact absurd hm (by simp)
    next lp hp =>
      simp only [Except.ok.injEq] at hm
      subst hm
      show histOk (m.history.dropLast ++ [_])
      rw [histOk_concat]
      simp

theorem set_position_histOk (m : Machine) (kwargs : List (String × ℚ))
    (h : histOk m.history) : histOk ((m.set_position kwargs).2.history) := by
  simp only [Machine.set_position]
  split
  next e heq => exact h
  next m1 heq =>
    have h1 : histOk m1.history := updateLastPoint_ok_histOk m _ m1 h heq
    split
    · exact h1
    · split
      next m2 heq2 =>
        have h2 := ask_history m1 (make_position_string "G92" (parse_position kwargs)) 1
        rw [heq2] at h2
        show histOk m2.history
        rw [h2]
        exact h1
      next e m2 hguard heq2 =>
        have h2 := ask_history m1 (make_position_string "G92" (parse_position kwargs)) 1
        rw [heq2] at h2
        show histOk m2.history
        rw [h2]
        exact h1
      next r m2 heq2 =>
        have h2 := ask_history m1 (make_position_string "G92" (parse_position kwargs)) 1
        rw [heq2] at h2
        show histOk m2.history
        rw [h2]
        exact h1

theorem traceLoop_histOk : ∀ (pts : List Point) (m : Machine) (s : Bool)
    (r : Except PyError Bool) (m1 : Machine), histOk m.history →
    m.traceLoop pts s = (r, m1) → histOk m1.history := by
  intro pts
  induction pts with
  | nil =>
    intro m s r m1 h heq
    unfold Machine.traceLoop at heq
    cases heq
    exact h
  | cons pt rest ih =>
    intro m s r m1 h heq
    unfold Machine.traceLoop at heq
    cases hap : m.appendPoint pt with
    | error e =>
      rw [hap] at heq
      cases heq
      exact h
    | ok ma =>
      rw [hap] at heq
      have ha : histOk ma.history := appendPoint_ok_histOk m pt ma hap
      cases s with
      | false =>
        simp only [Bool.false_eq_true, if_false] at heq
        exact ih ma false r m1 ha heq
      | true =>
        simp only [if_true] at heq
        cases hask : ma.ask (traceChain pt ma.feed_rate ma.endstops) 1 with
        | mk ro mb =>
          have hb : histOk mb.history := by
            have h2 := ask_history ma (traceChain pt ma.feed_rate ma.endstops) 1
            rw [hask] at h2
            rw [h2]
            exact ha
          rw [hask] at heq
          cases ro with
          | error e =>
            cases heq
            exact hb
          | ok a =>
            exact ih mb a.isSome r m1 hb heq

theorem trace_histOk (m : Machine) (xs ys zs cs : Option (List ℚ))
    (h : histOk m.history) : histOk ((m.trace xs ys zs cs).2.history) := by
  simp only [Machine.trace]
  split
  · exact h
  · split
    · exact h
    · split
      next e m1 heq =>
        exact traceLoop_histOk _ m true _ m1 h heq
      next success m1 heq =>
        have h1 : histOk m1.history := traceLoop_histOk _ m true _ m1 h heq
        split
        · split
          next e2 m2 heq2 =>
            have h2 := wait_history m1
            rw [heq2] at h2
            show histOk m2.history
            rw [h2]
            exact h1
          next w m2 heq2 =>
            have h2 := wait_history m1
            rw [heq2] at h2
            show histOk m2.history
            rw [h2]
            exact h1
        · exact h1

/-- One invocation of a public `Machine` operation (or an environment event:
the device buffering more reply data, or the drain behavior changing). -/
inductive MOp where
  | setPortOp (p : String)
  | setBaudRateOp (b : ℤ)
  | setTimeoutOp (t : Option ℚ)
  | setTermCharOp (s : String)
  | setResponseOkOp (s : String)
  | setToolSizeOp (v : ℚ)
  | setFeedRateOp (v : ℚ)
  | openOp
  | closeOp
  | writeOp (cmd : String)
  | readlineOp
  | waitAnswerOp (n : Nat)
  | askOp (cmd : String) (n : Nat)
  | waitOp
  | getPositionOp
  | setPositionOp (kwargs : List (String × ℚ))
  | moveOp (relative : Bool) (kwargs : List (String × ℚ))
  | traceOp (xs ys zs cs : Option (List ℚ))
  | probeEndstopsOp
  | switchMotorsOp (b : Bool)
  | enableEndstopsOp
  | disableEndstopsOp
  | deviceFeed (evts : List ReadEvent)
  | drainFlag (b : Bool)

/-- The machine state after one operation (results and raised exceptions are
dropped; Python exceptions do not roll state back). -/
def applyOp (m : Machine) : MOp → Machine
  | .setPortOp p => (m.set_port p).2
  | .setBaudRateOp b => (m.set_baud_rate b).2
  | .setTimeoutOp t => (m.set_timeout t).2
  | .setTermCharOp s => (m.set_term_char s).2
  | .setResponseOkOp s => (m.set_response_ok s).2
  | .setToolSizeOp v => (m.set_tool_size v).2
  | .setFeedRateOp v => (m.set_feed_rate v).2
  | .openOp => (m.openConn).2
  | .closeOp => (m.closeConn).2
  | .writeOp cmd => (m.write cmd).2
  | .readlineOp => (m.readline).2
  | .waitAnswerOp n => (m.wait_answer n).2
  | .askOp cmd n => (m.ask cmd n).2
  | .waitOp => (m.wait).2
  | .getPositionOp => (m.get_position).2
  | .setPositionOp kwargs => (m.set_position kwargs).2
  | .moveOp relative kwargs => (m.move relative kwargs).2
  | .traceOp xs ys zs cs => (m.trace xs ys zs cs).2
  | .probeEndstopsOp => (m.probe_endstops).2
  | .switchMotorsOp b => (m.switch_motors b).2
  | .enableEndstopsOp => m.enable_endstops
  | .disableEndstopsOp => m.disable_endstops
  | .deviceFeed evts => { m with incoming := evts }
  | .drainFlag b => { m with drain_times_out := b }

/-- The state built by `Machine.__init__`, in an arbitrary environment. -/
def initMachine (port : String) (evts : List ReadEvent) (dflag : Bool) : Machine :=
  { port := port, incoming := evts, drain_times_out := dflag }

/-- Machine states reachable from construction through any sequence of
public operations and environment events. -/
inductive Reachable : Machine → Prop where
  | init (port : String) (evts : List ReadEvent) (dflag : Bool) :
      Reachable (initMachine port evts dflag)
  | step (m : Machine) (op : MOp) (h : Reachable m) : Reachable (applyOp m op)

theorem applyOp_histOk (m : Machine) (op : MOp) (h : histOk m.history) :
    histOk (applyOp m op).history := by
  cases op with
  | setPortOp p =>
    show histOk ((m.set_port p).2.history)
    rw [set_port_history]
    exact h
  | setBaudRateOp b =>
    show histOk ((m.set_baud_rate b).2.history)
    rw [set_baud_rate_history]
    exact h
  | setTimeoutOp t =>
    show histOk ((m.set_timeout t).2.history)
    rw [set_timeout_history]
    exact h
  | setTermCharOp s =>
    show histOk ((m.set_term_char s).2.history)
    rw [set_term_char_history]
    exact h
  | setResponseOkOp s =>
    show histOk ((m.set_response_ok s).2.history)
    rw [set_response_ok_history]
    exact h
  | setToolSizeOp v => exact set_tool_size_histOk m v h
  | setFeedRateOp v =>
    show histOk ((m.set_feed_rate v).2.history)
    rw [set_feed_rate_history]
    exact h
  | openOp =>
    show histOk ((m.openConn).2.history)
    rw [openConn_history]
    exact h
  | closeOp =>
    show histOk ((m.closeConn).2.history)
    rw [closeConn_history]
    exact h
  | writeOp cmd =>
    show histOk ((m.write cmd).2.history)
    rw [write_history]
    exact h
  | readlineOp =>
    show histOk ((m.readline).2.history)
    rw [readline_history]
    exact h
  | waitAnswerOp n =>
    show histOk ((m.wait_answer n).2.history)
    rw [wait_answer_history]
    exact h
  | askOp cmd n =>
    show histOk ((m.ask cmd n).2.history)
    rw [ask_history]
    exact h
  | waitOp =>
    show histOk ((m.wait).2.history)
    rw [wait_history]
    exact h
  | getPositionOp =>
    show histOk ((m.get_position).2.history)
    rw [get_position_history]
    exact h
  | setPositionOp kwargs => exact set_position_histOk m kwargs h
  | moveOp relative kwargs => exact move_histOk m relative kwargs h
  | traceOp xs ys zs cs => exact trace_histOk m xs ys zs cs h
  | probeEndstopsOp =>
    show histOk ((m.probe_endstops).2.history)
    rw [probe_endstops_history]
    exact h
  | switchMotorsOp b =>
    show histOk ((m.switch_motors b).2.history)
    rw [switch_motors_history]
    exact h
  | enableEndstopsOp => exact h
  | disableEndstopsOp => exact h
  | deviceFeed evts => exact h
  | drainFlag b => exact h

/-- C10 (confirmed): in every reachable machine state the history holds at
least one segment whose last segment holds at least one point — the history
is seeded with one segment holding the origin and no public operation ever
removes a segment or a point — so `history[-1][-1]` is always defined, and
the disconnected `get_position` returns it, never reaching the empty-history
fallback that returns a default `Point()`. -/
theorem history_invariant (m : Machine) (h : Reachable m) :
    m.history ≠ [] ∧
    (∃ sp, m.history.getLast? = some sp ∧ sp.points ≠ []) ∧
    (m.writer_open = false → ∃ sp pt, m.history.getLast? = some sp ∧
      sp.points.getLast? = some pt ∧ (m.get_position).1 = .ok pt) := by
  have hOk : histOk m.history := by
    induction h with
    | init port evts dflag =>
      unfold initMachine histOk
      simp
    | step m op hr ih => exact applyOp_histOk m op ih
  unfold histOk at hOk
  cases hl : m.history.getLast? with
  | none => rw [hl] at hOk; exact hOk.elim
  | some sp =>
    rw [hl] at hOk
    have hne : m.history ≠ [] := by
      intro h0
      rw [h0] at hl
      simp at hl
    refine ⟨hne, ⟨sp, rfl, hOk⟩, ?_⟩
    intro hw
    obtain ⟨pt, hpt⟩ := Option.isSome_iff_exists.mp (List.getLast?_isSome.mpr hOk)
    refine ⟨sp, pt, rfl, hpt, ?_⟩
    unfold Machine.get_position
    rw [if_pos hw, hl]
    show (match sp.points.getLast? with
      | some pt => ((Except.ok pt : Except PyError Point), m)
      | none => (Except.error PyError.indexError, m)).1 = Except.ok pt
    rw [hpt]

/-- Witness for C10's theorem: a freshly constructed machine is reachable
and its history is non-empty. -/
theorem history_invariant_witness :
    (initMachine "/dev/ttyUSB0" [] false).history ≠ [] :=
  (history_invariant _ (Reachable.init "/dev/ttyUSB0" [] false)).1
